import Mathlib

/-!
Shallow embedding of the rench HTTP benchmarking tool (src/stats.rs,
src/content_length.rs, src/main.rs) and proofs about its statistics
engine, byte-size formatter and request dispatcher.

Modelling conventions:
* `std::time::Duration` values are represented by their total length in
  nanoseconds as a `Nat`.  A normalized Rust `Duration` (seconds `u64`,
  sub-second nanoseconds `< 10^9`) corresponds bijectively to that total,
  `Duration` ordering and addition agree with `Nat` ordering and addition.
  Overflow panics of `u64` second counts are not modelled.
* Machine integers are `Nat` with explicit `% 2 ^ w` where a value-changing
  cast occurs in the source (the `facts.len() as u32` cast).
* `f64` arithmetic appears in two places.  Where a claim depends on the
  exact binary rounding (the percentile index expression) we emulate IEEE-754
  binary64 round-to-nearest-even exactly with integer arithmetic.  Where no
  claim depends on rounding (the `to_ms` millisecond conversion feeding the
  histogram, whose claims are about lengths, totals and the all-zero case)
  we use exact rational arithmetic, with Rust float-to-integer cast
  semantics (`NaN` casts to `0`, `+inf` saturates to `usize::MAX`) made
  explicit at the cast site.
-/

namespace Rench

/-- Fact (src/stats.rs lines 7-12): record of one completed request.
`status` is the HTTP status code, `duration` the elapsed time in
nanoseconds, `content_length` a byte count. -/
structure Fact where
  status : Nat
  duration : Nat
  content_length : Nat
deriving DecidableEq, Repr

/-- Model of a `reqwest::Response` as far as `Fact::record` consumes it:
it carries a status code and a body whose byte length is
`content_length`. -/
structure Response where
  status : Nat
  content_length : Nat
deriving DecidableEq, Repr

/-- Fact.record (src/stats.rs lines 14-22): builds the `Fact` for a
completed request.  The source stores the literal `0` in the
`content_length` field, ignoring the response body. -/
def Fact.record (resp : Response) (duration : Nat) : Fact :=
  { duration := duration, status := resp.status, content_length := 0 }

/-- Summary (src/stats.rs lines 24-33).  All durations in nanoseconds. -/
structure Summary where
  average : Nat
  median : Nat
  max : Nat
  min : Nat
  count : Nat
  percentiles : List Nat
  latency_histogram : List Nat
deriving DecidableEq, Repr

/-- Summary.zero (src/stats.rs lines 36-46): the summary returned for an
empty fact slice.  The source builds `vec![Duration::new(0, 0); 100]` for
the percentiles and `vec![0; 0]` for the histogram. -/
def Summary.zero : Summary :=
  { average := 0
    median := 0
    max := 0
    min := 0
    count := 0
    percentiles := List.replicate 100 0
    latency_histogram := List.replicate 0 0 }

/-- to_ms (src/stats.rs lines 49-51): millisecond value of a duration,
`secs * 1000 + subsec_nanos / 1e6`, computed over exact rationals in place
of `f64` (see the module comment). -/
def toMs (d : Nat) : ℚ :=
  ((d / 10 ^ 9 : Nat) : ℚ) * 1000 + ((d % 10 ^ 9 : Nat) : ℚ) / 1000000

/-- Rust `Duration::checked_div` (used by `sum / count` and the median
division in from_facts): seconds and sub-second nanoseconds are divided
separately and the carry of the seconds division is converted to
nanoseconds with a second truncating division.  `d` and the result are
total nanosecond counts. -/
def rustDurDiv (d rhs : Nat) : Nat :=
  d / 10 ^ 9 / rhs * 10 ^ 9 + d % 10 ^ 9 / rhs + d / 10 ^ 9 % rhs * 10 ^ 9 / rhs

/-- Fuel-driven floor of the base-2 logarithm; with fuel at least `n` it
computes `Nat.log2 n` and, unlike the library function, reduces in the
kernel. -/
def log2F : Nat → Nat → Nat
  | 0, _ => 0
  | fuel + 1, n => if n < 2 then 0 else log2F fuel (n / 2) + 1

/-- Rounds an integer to 53 significant bits, round-to-nearest with ties
to even, returning the mantissa and the power of two shifted away.  This
is the significand rounding step of IEEE-754 binary64 arithmetic. -/
def roundMant (n : Nat) : Nat × Nat :=
  if n < 2 ^ 53 then (n, 0)
  else
    let s := log2F n n - 52
    let m0 := n / 2 ^ s
    let r := n % 2 ^ s
    let half := 2 ^ (s - 1)
    (if half < r then m0 + 1
     else if r < half then m0
     else if m0 % 2 = 0 then m0 else m0 + 1, s)

/-- An IEEE-754 binary64 value `m * 2 ^ e`, restricted to the nonnegative
finite range (the only values arising in the percentile index
computation). -/
structure F64 where
  m : Nat
  e : Int
deriving DecidableEq, Repr

/-- Correctly rounded binary64 division of two naturals (the `n as f64 /
50.0` step of the percentile index): the exact quotient is scaled so that
its floor has 53 bits, then rounded to nearest, ties to even. -/
def f64Div (a b : Nat) : F64 :=
  if a = 0 ∨ b = 0 then ⟨0, 0⟩
  else
    let scaled := a * 2 ^ 200 / b
    let e : Int := (log2F scaled scaled : Int) - 252
    let A := if 0 ≤ e then a else a * 2 ^ e.natAbs
    let B := if 0 ≤ e then b * 2 ^ e.toNat else b
    let m0 := A / B
    let r := A % B
    ⟨if B < 2 * r then m0 + 1
      else if 2 * r < B then m0
      else if m0 % 2 = 0 then m0 else m0 + 1, e⟩

/-- Conversion of a natural to binary64 (the `sorted.len() as f64` step),
exact below `2 ^ 53` and correctly rounded above. -/
def f64OfNat (c : Nat) : F64 :=
  ⟨(roundMant c).1, ((roundMant c).2 : Int)⟩

/-- Correctly rounded binary64 multiplication: the exact product of the
mantissas is rounded back to 53 bits. -/
def f64Mul (x y : F64) : F64 :=
  ⟨(roundMant (x.m * y.m)).1, x.e + y.e + ((roundMant (x.m * y.m)).2 : Int)⟩

/-- Rust `as usize` on a nonnegative finite binary64: truncation toward
zero, saturating at `usize::MAX`. -/
def f64TruncToUsize (x : F64) : Nat :=
  Nat.min (if 0 ≤ x.e then x.m * 2 ^ x.e.toNat else x.m / 2 ^ x.e.natAbs) (2 ^ 64 - 1)

/-- Percentile index before clamping (src/stats.rs line 109): the exact
binary64 value of `((n as f64 / 50.0) * sorted.len() as f64) as usize`. -/
def percRawIndex (n len : Nat) : Nat :=
  f64TruncToUsize (f64Mul (f64Div n 50) (f64OfNat len))

/-- Rust `(x / y) as usize` for nonnegative `f64` operands with `y`
possibly zero (the histogram bucket expression, src/stats.rs line 103):
`0.0 / 0.0` is `NaN` and casts to `0`; positive over zero is `+inf` and
saturates; otherwise the quotient truncates toward zero. -/
def f64DivCast (x y : ℚ) : Nat :=
  if y = 0 then (if x = 0 then 0 else 2 ^ 64 - 1) else ⌊x / y⌋₊

/-- In-place `+= 1` at an index of a `Vec<u32>` (src/stats.rs line 104),
as a functional list update; out-of-range indices (which cannot arise,
the index is clamped below the length) leave the list unchanged. -/
def incrAt : List Nat → Nat → List Nat
  | [], _ => []
  | x :: xs, 0 => (x + 1) :: xs
  | x :: xs, n + 1 => x :: incrAt xs n

/-- The ascending sort of the fact durations (src/stats.rs lines 85-86):
`sorted.sort()` on `Vec<Duration>` sorts by the total-nanosecond order. -/
def sortedDurations (facts : List Fact) : List Nat :=
  List.insertionSort (· ≤ ·) (facts.map Fact.duration)

/-- Summary.from_facts (src/stats.rs lines 78-125), translated clause by
clause: early return on the empty slice, `count` as the `u32` cast of the
length, truncating duration average, median from the sorted durations,
min and max from the ends of the sorted vector, a 50-bucket histogram
over `[0, max]` milliseconds and 50 percentile samples. -/
def Summary.fromFacts (facts : List Fact) : Summary :=
  if facts.length = 0 then Summary.zero
  else
    let count := facts.length % 2 ^ 32
    let sum := (facts.map Fact.duration).sum
    let average := rustDurDiv sum count
    let sorted := sortedDurations facts
    let mid := sorted.length / 2
    let median :=
      if facts.length % 2 = 0 then
        rustDurDiv (sorted.getD (mid - 1) 0 + sorted.getD mid 0) 2
      else sorted.getD mid 0
    let minD := sorted.headD 0
    let maxD := sorted.getLastD 0
    let bin_size := toMs maxD / 50
    let latency_histogram :=
      sorted.foldl
        (fun h d => incrAt h (Nat.min (f64DivCast (toMs d) bin_size) 49))
        (List.replicate 50 0)
    let percentiles :=
      (List.range 50).map
        (fun n =>
          sorted.getD (Nat.min (Nat.max (percRawIndex n sorted.length) 0) (sorted.length - 1)) 0)
    { average := average
      median := median
      max := maxD
      min := minD
      count := count
      percentiles := percentiles
      latency_histogram := latency_histogram }

/-- ContentLength (src/content_length.rs line 8): wrapper of a `u64` byte
count; `bytes` is the accessor of src/content_length.rs lines 22-24. -/
structure ContentLength where
  bytes : Nat
deriving DecidableEq, Repr

/-- ContentLength::zero (src/content_length.rs lines 12-14). -/
def ContentLength.zero : ContentLength := ⟨0⟩

/-- ContentLength::new (src/content_length.rs lines 17-19). -/
def ContentLength.new (bytes : Nat) : ContentLength := ⟨bytes⟩

/-- impl Add for ContentLength (src/content_length.rs lines 46-52): the
value + value form, `ContentLength(self.0 + rhs.0)`.  The `u64` addition
wraps at `2 ^ 64` (release semantics; in debug builds it panics
instead). -/
def ContentLength.addOwnOwn (a b : ContentLength) : ContentLength :=
  ⟨(a.bytes + b.bytes) % 2 ^ 64⟩

/-- impl Add for &ContentLength (src/content_length.rs lines 54-60): the
reference + reference form; borrowing has no observable effect in the
embedding, the body is again the wrapping `ContentLength(self.0 +
rhs.0)`. -/
def ContentLength.addRefRef (a b : ContentLength) : ContentLength :=
  ⟨(a.bytes + b.bytes) % 2 ^ 64⟩

/-- impl Add of &ContentLength for ContentLength (src/content_length.rs
lines 62-68): the value + reference form. -/
def ContentLength.addOwnRef (a b : ContentLength) : ContentLength :=
  ⟨(a.bytes + b.bytes) % 2 ^ 64⟩

/-- impl Add of ContentLength for &ContentLength (src/content_length.rs
lines 70-76): the reference + value form. -/
def ContentLength.addRefOwn (a b : ContentLength) : ContentLength :=
  ⟨(a.bytes + b.bytes) % 2 ^ 64⟩

/-- GIGS constant of the Display impl (src/content_length.rs line 29). -/
def GIGS : Nat := 1024 * 1024 * 1024

/-- MEGS constant of the Display impl (src/content_length.rs line 30). -/
def MEGS : Nat := 1024 * 1024

/-- KILO constant of the Display impl (src/content_length.rs line 31). -/
def KILO : Nat := 1024

/-- Value of the `self.0 as f64` conversion in the Display impl: a `u64`
converts to the nearest binary64, ties to even, and the result is an
integer because every binary64 at or above `2 ^ 52` has an integer
value. -/
def u64AsF64 (b : Nat) : Nat :=
  (roundMant b).1 * 2 ^ (roundMant b).2

/-- Value of `num / den` in hundredths, rounded to nearest with ties to
even.  Applied to `num = u64AsF64 bytes` and a power-of-two tier
constant `den`, this is exactly what Rust prints with `{:0.2}`: dividing
the converted binary64 by a power of two only shifts its exponent (every
in-tier quotient exceeds 1, so no subnormals arise), hence the formatted
value is exactly `u64AsF64 bytes / den`, and float formatting rounds that
exact value to the requested number of decimals with ties to even. -/
def roundHundredths (num den : Nat) : Nat :=
  let q := num * 100 / den
  let r := num * 100 % den
  if den < 2 * r then q + 1
  else if 2 * r < den then q
  else if q % 2 = 0 then q else q + 1

/-- Decimal rendering of a number of hundredths as `{:0.2}` does: integer
part, a dot, exactly two fraction digits. -/
def fmtHundredths (h : Nat) : String :=
  toString (h / 100) ++ "." ++
    (if h % 100 < 10 then "0" ++ toString (h % 100) else toString (h % 100))

/-- impl Display for ContentLength (src/content_length.rs lines 27-44):
tier selection by strict greater-than of the `u64` value against GIGS,
MEGS, KILO, then the value converted `as f64`, divided by the tier unit
and rendered with two decimals, or the raw byte count with a " B"
suffix. -/
def ContentLength.display (c : ContentLength) : String :=
  if GIGS < c.bytes then fmtHundredths (roundHundredths (u64AsF64 c.bytes) GIGS) ++ " GB"
  else if MEGS < c.bytes then fmtHundredths (roundHundredths (u64AsF64 c.bytes) MEGS) ++ " MB"
  else if KILO < c.bytes then fmtHundredths (roundHundredths (u64AsF64 c.bytes) KILO) ++ " KB"
  else toString c.bytes ++ " B"

/-- make_requests (src/main.rs lines 180-202): one worker's request loop.
The untimed warm-up request (lines 184-187) produces no Fact; `respond i`
models the network, giving the Fact the worker records for its `i`-th
timed request.  The loop `(0..number_of_requests).map(...).collect()`
yields exactly `number_of_requests` Facts. -/
def makeRequests (respond : Nat → Fact) (number_of_requests : Nat) : List Fact :=
  (List.range number_of_requests).map respond

/-- The fact-gathering phase of main (src/main.rs lines 229-238): each of
`threads` workers runs `make_requests(url, requests / threads)` (a
truncating `u32` division), the join handles are collected in worker
order and the per-worker vectors are concatenated into `flat_facts`.
`respond t i` models the network response seen by worker `t` on its
`i`-th timed request. -/
def mainFacts (respond : Nat → Nat → Fact) (threads requests : Nat) : List Fact :=
  (((List.range threads).map (fun t => makeRequests (respond t) (requests / threads)))).flatten

/-- Fifty facts with durations 0s, 1s, ..., 49s, the input of the
percentile test `calculates_all_the_percentiles_when_n_less_than_100`
(src/stats.rs lines 270-287). -/
def facts50 : List Fact := (List.range 50).map (fun n => ⟨200, n * 10 ^ 9, 0⟩)

/-- Five hundred facts with durations 0s, 1s, ..., 499s, the input of the
percentile test `calculates_all_the_percentiles_when_n_greater_than_100`
(src/stats.rs lines 289-306). -/
def facts500 : List Fact := (List.range 500).map (fun n => ⟨200, n * 10 ^ 9, 0⟩)

/-! ## Helper lemmas -/

/-- Dividing a duration by 2 with Rust's seconds-and-nanoseconds split
algorithm equals floor division of the total nanosecond count: the carry
`(secs % 2) * 10^9` is even, so no precision is lost across the split. -/
theorem rustDurDiv_two (d : Nat) : rustDurDiv d 2 = d / 2 := by
  unfold rustDurDiv
  omega

/-- incrAt preserves the length of the list. -/
theorem length_incrAt (l : List Nat) (i : Nat) : (incrAt l i).length = l.length := by
  induction l generalizing i with
  | nil => rfl
  | cons x xs ih => cases i <;> simp [incrAt, ih]

/-- incrAt at an in-range index grows the sum by exactly one. -/
theorem sum_incrAt (l : List Nat) (i : Nat) (h : i < l.length) :
    (incrAt l i).sum = l.sum + 1 := by
  induction l generalizing i with
  | nil => simp at h
  | cons x xs ih =>
    cases i with
    | zero => simp [incrAt]; omega
    | succ n =>
      have hn : n < xs.length := by simpa using h
      simp [incrAt, ih n hn]
      omega

/-- The histogram fold preserves the length of the accumulator. -/
theorem histFold_length (f : Nat → Nat) (xs : List Nat) (acc : List Nat) :
    (xs.foldl (fun h d => incrAt h (f d)) acc).length = acc.length := by
  induction xs generalizing acc with
  | nil => rfl
  | cons x xs ih => simp only [List.foldl_cons]; rw [ih, length_incrAt]

/-- When every bucket index is below the accumulator length, the
histogram fold adds one to the total count per element. -/
theorem histFold_sum (f : Nat → Nat) (n : Nat) (xs : List Nat) (acc : List Nat)
    (hacc : acc.length = n) (hf : ∀ d, f d < n) :
    (xs.foldl (fun h d => incrAt h (f d)) acc).sum = acc.sum + xs.length := by
  induction xs generalizing acc with
  | nil => simp
  | cons x xs ih =>
    simp only [List.foldl_cons]
    rw [ih (incrAt acc (f x)) (by rw [length_incrAt, hacc]),
      sum_incrAt acc (f x) (by rw [hacc]; exact hf x)]
    simp
    omega

/-- When every element is assigned bucket 0, the histogram fold adds the
element count to the head bucket and leaves the tail unchanged. -/
theorem histFold_zeroIdx (f : Nat → Nat) (xs : List Nat) (a : Nat) (t : List Nat)
    (hz : ∀ d ∈ xs, f d = 0) :
    xs.foldl (fun h d => incrAt h (f d)) (a :: t) = (a + xs.length) :: t := by
  induction xs generalizing a with
  | nil => simp
  | cons x xs ih =>
    have hx : f x = 0 := hz x (by simp)
    have hxs : ∀ d ∈ xs, f d = 0 := fun d hd => hz d (by simp [hd])
    simp only [List.foldl_cons, hx, incrAt]
    rw [ih (a + 1) hxs]
    congr 1
    simp
    omega

/-- Sorting does not change the number of durations. -/
theorem sortedDurations_length (facts : List Fact) :
    (sortedDurations facts).length = facts.length := by
  unfold sortedDurations
  rw [(List.perm_insertionSort _ _).length_eq, List.length_map]

/-- Membership in the sorted durations is membership among the fact
durations. -/
theorem mem_sortedDurations {facts : List Fact} {d : Nat} :
    d ∈ sortedDurations facts ↔ d ∈ facts.map Fact.duration :=
  (List.perm_insertionSort _ _).mem_iff

/-- Unfolding of the count field of from_facts on a non-empty slice. -/
theorem fromFacts_count (facts : List Fact) (h : facts.length ≠ 0) :
    (Summary.fromFacts facts).count = facts.length % 2 ^ 32 := by
  simp only [Summary.fromFacts, if_neg h]

/-- Unfolding of the median field of from_facts on a non-empty slice. -/
theorem fromFacts_median (facts : List Fact) (h : facts.length ≠ 0) :
    (Summary.fromFacts facts).median =
      if facts.length % 2 = 0 then
        rustDurDiv ((sortedDurations facts).getD ((sortedDurations facts).length / 2 - 1) 0 +
          (sortedDurations facts).getD ((sortedDurations facts).length / 2) 0) 2
      else (sortedDurations facts).getD ((sortedDurations facts).length / 2) 0 := by
  simp only [Summary.fromFacts, if_neg h]

/-- Unfolding of the percentiles field of from_facts on a non-empty
slice. -/
theorem fromFacts_percentiles (facts : List Fact) (h : facts.length ≠ 0) :
    (Summary.fromFacts facts).percentiles =
      (List.range 50).map
        (fun n =>
          (sortedDurations facts).getD
            (Nat.min (Nat.max (percRawIndex n (sortedDurations facts).length) 0)
              ((sortedDurations facts).length - 1)) 0) := by
  simp only [Summary.fromFacts, if_neg h]

/-- Unfolding of the latency_histogram field of from_facts on a non-empty
slice. -/
theorem fromFacts_histogram (facts : List Fact) (h : facts.length ≠ 0) :
    (Summary.fromFacts facts).latency_histogram =
      (sortedDurations facts).foldl
        (fun hh d =>
          incrAt hh
            (Nat.min (f64DivCast (toMs d) (toMs ((sortedDurations facts).getLastD 0) / 50)) 49))
        (List.replicate 50 0) := by
  simp only [Summary.fromFacts, if_neg h]

/-! ## Claims -/

/-- C1: For the empty Fact sequence, the claim that `percentiles` has
exactly 50 zero-durations is false: `Summary::zero` allocates
`vec![Duration::new(0, 0); 100]`, a sequence of length 100. -/
theorem c1_counterexample : (Summary.fromFacts []).percentiles.length ≠ 50 := by
  decide

/-- C1 (amended): For the empty Fact sequence, `Summary::from_facts`
returns count 0, average, median, min and max all zero, a percentiles
field of exactly 100 zero-durations, and an empty latency histogram. -/
theorem c1_empty_summary :
    (Summary.fromFacts []).count = 0 ∧
    (Summary.fromFacts []).average = 0 ∧
    (Summary.fromFacts []).median = 0 ∧
    (Summary.fromFacts []).min = 0 ∧
    (Summary.fromFacts []).max = 0 ∧
    (Summary.fromFacts []).percentiles = List.replicate 100 0 ∧
    (Summary.fromFacts []).latency_histogram = [] := by
  refine ⟨rfl, rfl, rfl, rfl, rfl, by decide, rfl⟩

/-- C3: `Fact::record` keeps the response status and the measured
duration, but stores the constant `0` in `content_length`, not the
response's byte count: for a completed 200 response of 500 body bytes
measured at 5 ms, the recorded `content_length` is 0 and differs from the
body length. -/
theorem c3_content_length_constant :
    (Fact.record (Response.mk 200 500) (5 * 10 ^ 6)).status = 200 ∧
    (Fact.record (Response.mk 200 500) (5 * 10 ^ 6)).duration = 5 * 10 ^ 6 ∧
    (Fact.record (Response.mk 200 500) (5 * 10 ^ 6)).content_length = 0 ∧
    (Fact.record (Response.mk 200 500) (5 * 10 ^ 6)).content_length ≠
      (Response.mk 200 500).content_length := by
  refine ⟨rfl, rfl, rfl, by decide⟩

/-- C9: The claim that addition always returns the exact plain integer
sum is false of the program: the `u64` addition wraps (release builds; it
panics in debug builds), so `ContentLength(2^63) + ContentLength(2^63)`
is `ContentLength(0)`, not `ContentLength(2^64)`. -/
theorem c9_counterexample :
    ContentLength.addOwnOwn ⟨2 ^ 63⟩ ⟨2 ^ 63⟩ = ContentLength.new 0 ∧
    ContentLength.addOwnOwn ⟨2 ^ 63⟩ ⟨2 ^ 63⟩ ≠ ContentLength.new (2 ^ 63 + 2 ^ 63) := by
  exact ⟨by decide, by decide⟩

/-- C9 (amended): All four ownership forms of ContentLength addition
return the byte-count sum reduced modulo `2 ^ 64`; whenever the sum fits
in `u64` this is the exact plain integer sum, and the addition is
commutative and associative. -/
theorem c9_add_forms :
    (∀ a b : ContentLength,
      ContentLength.addOwnOwn a b = ⟨(a.bytes + b.bytes) % 2 ^ 64⟩ ∧
      ContentLength.addRefRef a b = ⟨(a.bytes + b.bytes) % 2 ^ 64⟩ ∧
      ContentLength.addOwnRef a b = ⟨(a.bytes + b.bytes) % 2 ^ 64⟩ ∧
      ContentLength.addRefOwn a b = ⟨(a.bytes + b.bytes) % 2 ^ 64⟩) ∧
    (∀ a b : ContentLength, a.bytes + b.bytes < 2 ^ 64 →
      ContentLength.addOwnOwn a b = ContentLength.new (a.bytes + b.bytes) ∧
      ContentLength.addRefRef a b = ContentLength.new (a.bytes + b.bytes) ∧
      ContentLength.addOwnRef a b = ContentLength.new (a.bytes + b.bytes) ∧
      ContentLength.addRefOwn a b = ContentLength.new (a.bytes + b.bytes)) ∧
    (∀ a b : ContentLength, ContentLength.addOwnOwn a b = ContentLength.addOwnOwn b a) ∧
    (∀ a b c : ContentLength,
      ContentLength.addOwnOwn (ContentLength.addOwnOwn a b) c =
        ContentLength.addOwnOwn a (ContentLength.addOwnOwn b c)) := by
  refine ⟨fun a b => ⟨rfl, rfl, rfl, rfl⟩, fun a b h => ?_, fun a b => ?_, fun a b c => ?_⟩
  · have hm : (a.bytes + b.bytes) % 2 ^ 64 = a.bytes + b.bytes := Nat.mod_eq_of_lt h
    refine ⟨?_, ?_, ?_, ?_⟩ <;>
      simp only [ContentLength.addOwnOwn, ContentLength.addRefRef, ContentLength.addOwnRef,
        ContentLength.addRefOwn, ContentLength.new, ContentLength.mk.injEq] <;>
      exact hm
  · simp [ContentLength.addOwnOwn, Nat.add_comm]
  · simp only [ContentLength.addOwnOwn, ContentLength.mk.injEq]
    omega

/-- C9 witness: the exact-sum clause applied at 1 + 2 bytes. -/
theorem c9_add_forms_witness :
    ContentLength.addOwnOwn ⟨1⟩ ⟨2⟩ =
      ContentLength.new ((ContentLength.mk 1).bytes + (ContentLength.mk 2).bytes) :=
  (c9_add_forms.2.1 ⟨1⟩ ⟨2⟩ (by decide)).1

/-- C2: For every non-empty Fact sequence, the median is the middle
element of the ascending durations when the count is odd, and the
floor-divided average of the two middle elements when the count is even;
the Rust `Duration / 2` division loses nothing against floor division of
the total nanosecond counts. -/
theorem c2_median (facts : List Fact) (h1 : facts ≠ []) :
    (facts.length % 2 = 1 →
      (Summary.fromFacts facts).median = (sortedDurations facts).getD (facts.length / 2) 0) ∧
    (facts.length % 2 = 0 →
      (Summary.fromFacts facts).median =
        ((sortedDurations facts).getD (facts.length / 2 - 1) 0 +
          (sortedDurations facts).getD (facts.length / 2) 0) / 2) := by
  have hn : facts.length ≠ 0 := fun hc => h1 (List.length_eq_zero.mp hc)
  rw [fromFacts_median facts hn, sortedDurations_length]
  constructor
  · intro hodd
    rw [if_neg (by omega)]
  · intro heven
    rw [if_pos heven, rustDurDiv_two]

/-- C2 witness: for the three facts with durations 3s, 1s, 2s the odd
branch applies and the median is the middle sorted duration, 2s. -/
theorem c2_median_witness :
    (Summary.fromFacts [⟨200, 3 * 10 ^ 9, 0⟩, ⟨200, 1 * 10 ^ 9, 0⟩, ⟨200, 2 * 10 ^ 9, 0⟩]).median =
      (sortedDurations [⟨200, 3 * 10 ^ 9, 0⟩, ⟨200, 1 * 10 ^ 9, 0⟩, ⟨200, 2 * 10 ^ 9, 0⟩]).getD
        ([(⟨200, 3 * 10 ^ 9, 0⟩ : Fact), ⟨200, 1 * 10 ^ 9, 0⟩, ⟨200, 2 * 10 ^ 9, 0⟩].length / 2)
        0 :=
  (c2_median [⟨200, 3 * 10 ^ 9, 0⟩, ⟨200, 1 * 10 ^ 9, 0⟩, ⟨200, 2 * 10 ^ 9, 0⟩]
    (by decide)).1 (by decide)

/-- C5: For every non-empty Fact sequence the Summary has exactly 50
percentile samples and exactly 50 histogram buckets. -/
theorem c5_lengths (facts : List Fact) (h1 : facts ≠ []) :
    (Summary.fromFacts facts).percentiles.length = 50 ∧
    (Summary.fromFacts facts).latency_histogram.length = 50 := by
  have hn : facts.length ≠ 0 := fun hc => h1 (List.length_eq_zero.mp hc)
  constructor
  · rw [fromFacts_percentiles facts hn]
    simp
  · rw [fromFacts_histogram facts hn, histFold_length]
    simp

/-- C5 witness: a single zero-duration fact already gets 50 percentile
samples and 50 histogram buckets. -/
theorem c5_lengths_witness :
    (Summary.fromFacts [⟨200, 0, 0⟩]).percentiles.length = 50 ∧
    (Summary.fromFacts [⟨200, 0, 0⟩]).latency_histogram.length = 50 :=
  c5_lengths [⟨200, 0, 0⟩] (by decide)

/-- C10: For every non-empty Fact sequence whose length fits in `u32`,
every duration lands in exactly one clamped histogram bucket, so the 50
bucket counts add up to the input length, which is also the stored
count. -/
theorem c10_histogram_total (facts : List Fact) (h1 : facts ≠ [])
    (h2 : facts.length < 2 ^ 32) :
    (Summary.fromFacts facts).latency_histogram.sum = facts.length ∧
    (Summary.fromFacts facts).count = facts.length := by
  have hn : facts.length ≠ 0 := fun hc => h1 (List.length_eq_zero.mp hc)
  constructor
  · have hs := histFold_sum
      (fun d =>
        Nat.min (f64DivCast (toMs d) (toMs ((sortedDurations facts).getLastD 0) / 50)) 49)
      50 (sortedDurations facts) (List.replicate 50 0) (by simp)
      (fun d => Nat.lt_succ_of_le (Nat.min_le_right _ 49))
    rw [fromFacts_histogram facts hn, hs, sortedDurations_length]
    simp
  · rw [fromFacts_count facts hn, Nat.mod_eq_of_lt h2]

/-- C10 witness: two facts with durations 1s and 2s produce histogram
bucket counts summing to 2, with count 2. -/
theorem c10_histogram_total_witness :
    (Summary.fromFacts [⟨200, 10 ^ 9, 0⟩, ⟨200, 2 * 10 ^ 9, 0⟩]).latency_histogram.sum = 2 ∧
    (Summary.fromFacts [⟨200, 10 ^ 9, 0⟩, ⟨200, 2 * 10 ^ 9, 0⟩]).count = 2 :=
  c10_histogram_total [⟨200, 10 ^ 9, 0⟩, ⟨200, 2 * 10 ^ 9, 0⟩] (by decide) (by decide)

/-- C4: For every non-empty Fact sequence with all durations zero the
histogram bucket expression divides `0.0` by a zero bin size, which is
`NaN` and casts to bucket 0, so every sample lands in bucket 0: the
histogram is the input length followed by 49 zeros. -/
theorem c4_all_zero_histogram (facts : List Fact) (h1 : facts ≠ [])
    (hz : ∀ f ∈ facts, f.duration = 0) :
    (Summary.fromFacts facts).latency_histogram = facts.length :: List.replicate 49 0 := by
  have hn : facts.length ≠ 0 := fun hc => h1 (List.length_eq_zero.mp hc)
  have hsz : ∀ d ∈ sortedDurations facts, d = 0 := by
    intro d hd
    rcases List.mem_map.mp (mem_sortedDurations.mp hd) with ⟨f, hf, rfl⟩
    exact hz f hf
  have hlast : (sortedDurations facts).getLastD 0 = 0 := by
    rcases List.mem_cons.mp (List.getLastD_mem_cons (sortedDurations facts) 0) with hm | hm
    · exact hm
    · exact hsz _ hm
  have hz0 : ∀ d ∈ sortedDurations facts,
      (fun d =>
        Nat.min (f64DivCast (toMs d) (toMs ((sortedDurations facts).getLastD 0) / 50)) 49) d =
        0 := by
    intro d hd
    have hd0 : d = 0 := hsz d hd
    subst hd0
    simp [hlast, f64DivCast, toMs]
  have hrw := histFold_zeroIdx
    (fun d =>
      Nat.min (f64DivCast (toMs d) (toMs ((sortedDurations facts).getLastD 0) / 50)) 49)
    (sortedDurations facts) 0 (List.replicate 49 0) hz0
  rw [fromFacts_histogram facts hn]
  have hrep : (List.replicate 50 0 : List Nat) = 0 :: List.replicate 49 0 := rfl
  rw [hrep, hrw, sortedDurations_length, Nat.zero_add]

/-- C4 witness: two zero-duration facts give the histogram 2 followed by
49 zeros. -/
theorem c4_all_zero_histogram_witness :
    (Summary.fromFacts [⟨200, 0, 0⟩, ⟨404, 0, 0⟩]).latency_histogram =
      2 :: List.replicate 49 0 :=
  c4_all_zero_histogram [⟨200, 0, 0⟩, ⟨404, 0, 0⟩] (by decide) (by decide)

set_option maxRecDepth 2000000 in
/-- C6: The claimed exact index formula `floor((i/50) * count)` is false
for the code: with 50 facts of durations 0s..49s, at i = 29 the formula
gives index 29 and `sorted[29] = 29s`, but the `f64` evaluation of
`(29.0 / 50.0) * 50.0` is `28.999999999999996...`, which truncates to 28,
so the code stores `sorted[28] = 28s`. -/
theorem c6_counterexample :
    (Summary.fromFacts facts50).percentiles[29]? ≠ some (29 * 10 ^ 9) ∧
    (Summary.fromFacts facts50).percentiles[29]? = some (28 * 10 ^ 9) := by
  exact ⟨by decide, by decide⟩

set_option maxRecDepth 2000000 in
/-- C6 (amended): For every non-empty Fact sequence, `percentiles[i]` is
`sorted[index]` where `index` is the truncation of the IEEE-754 binary64
product `(i as f64 / 50.0) * count as f64`, clamped to `[0, count - 1]`;
binary rounding can land this one below `floor((i/50) * count)`.  The
three concrete 500-fact samples of the claim are unaffected: percentiles
0, 25 and 49 are 0s, 250s and 490s. -/
theorem c6_percentile_indexing :
    (∀ facts : List Fact, facts ≠ [] → ∀ i, i < 50 →
      (Summary.fromFacts facts).percentiles[i]? =
        some ((sortedDurations facts).getD
          (Nat.min (Nat.max (percRawIndex i facts.length) 0) (facts.length - 1)) 0)) ∧
    (Summary.fromFacts facts500).percentiles[0]? = some 0 ∧
    (Summary.fromFacts facts500).percentiles[25]? = some (250 * 10 ^ 9) ∧
    (Summary.fromFacts facts500).percentiles[49]? = some (490 * 10 ^ 9) := by
  refine ⟨?_, by decide, by decide, by decide⟩
  intro facts h1 i hi
  have hn : facts.length ≠ 0 := fun hc => h1 (List.length_eq_zero.mp hc)
  rw [fromFacts_percentiles facts hn, sortedDurations_length]
  simp [List.getElem?_map, List.getElem?_range, hi]

set_option maxRecDepth 2000000 in
/-- C6 witness: the amended indexing applied to the 50-fact input at
i = 29. -/
theorem c6_percentile_indexing_witness :
    (Summary.fromFacts facts50).percentiles[29]? =
      some ((sortedDurations facts50).getD
        (Nat.min (Nat.max (percRawIndex 29 facts50.length) 0) (facts50.length - 1)) 0) :=
  c6_percentile_indexing.1 facts50 (by decide) 29 (by decide)

/-- Summing a constant over a range multiplies it by the range length. -/
theorem sum_map_const_range (n k : Nat) : ((List.range n).map (fun _ => k)).sum = n * k := by
  induction n with
  | zero => simp
  | succ m ih =>
    rw [List.range_succ, List.map_append, List.sum_append]
    simp [ih, Nat.succ_mul]

/-- C7: With concurrency `threads ≥ 1` and `requests` total requests,
each worker issues exactly `requests / threads` timed requests, the
joined fact sequence has length `threads * (requests / threads)`, and the
`requests % threads` remainder requests are silently not issued. -/
theorem c7_dispatch (respond : Nat → Nat → Fact) (threads requests : Nat)
    (_h : 1 ≤ threads) :
    (∀ t, (makeRequests (respond t) (requests / threads)).length = requests / threads) ∧
    (mainFacts respond threads requests).length = threads * (requests / threads) ∧
    threads * (requests / threads) = requests - requests % threads := by
  refine ⟨fun t => by simp [makeRequests], ?_, ?_⟩
  · simp only [mainFacts, makeRequests, List.length_flatten, List.map_map]
    have hc : (List.length ∘ fun t => (List.range (requests / threads)).map (respond t)) =
        fun _ => requests / threads := by
      funext t
      simp
    rw [hc, sum_map_const_range]
  · have := Nat.div_add_mod requests threads
    omega

/-- C7 witness: three workers and ten requests yield nine joined facts,
one request silently dropped. -/
theorem c7_dispatch_witness :
    (mainFacts (fun _ _ => ⟨200, 10 ^ 6, 0⟩) 3 10).length = 3 * (10 / 3) :=
  (c7_dispatch (fun _ _ => ⟨200, 10 ^ 6, 0⟩) 3 10 (by decide)).2.1

/-- C8: Display picks its tier by strict greater-than thresholds, renders
the tier value with two decimals, and produces exactly the four example
strings of the claim. -/
theorem c8_display :
    (∀ b : Nat, 1024 ^ 3 < b →
      ContentLength.display ⟨b⟩ = fmtHundredths (roundHundredths (u64AsF64 b) GIGS) ++ " GB") ∧
    (∀ b : Nat, ¬ 1024 ^ 3 < b → 1024 ^ 2 < b →
      ContentLength.display ⟨b⟩ = fmtHundredths (roundHundredths (u64AsF64 b) MEGS) ++ " MB") ∧
    (∀ b : Nat, ¬ 1024 ^ 3 < b → ¬ 1024 ^ 2 < b → 1024 < b →
      ContentLength.display ⟨b⟩ = fmtHundredths (roundHundredths (u64AsF64 b) KILO) ++ " KB") ∧
    (∀ b : Nat, ¬ 1024 ^ 3 < b → ¬ 1024 ^ 2 < b → ¬ 1024 < b →
      ContentLength.display ⟨b⟩ = toString b ++ " B") ∧
    ContentLength.display ⟨500⟩ = "500 B" ∧
    ContentLength.display ⟨500000⟩ = "488.28 KB" ∧
    ContentLength.display ⟨500000000⟩ = "476.84 MB" ∧
    ContentLength.display ⟨500000000000⟩ = "465.66 GB" := by
  refine ⟨?_, ?_, ?_, ?_, by decide, by decide, by decide, by decide⟩
  · intro b hg
    rw [ContentLength.display, if_pos (by simpa [GIGS] using hg)]
  · intro b hg hm
    rw [ContentLength.display, if_neg (by simpa [GIGS] using hg),
      if_pos (by simpa [MEGS] using hm)]
  · intro b hg hm hk
    rw [ContentLength.display, if_neg (by simpa [GIGS] using hg),
      if_neg (by simpa [MEGS] using hm), if_pos (by simpa [KILO] using hk)]
  · intro b hg hm hk
    rw [ContentLength.display, if_neg (by simpa [GIGS] using hg),
      if_neg (by simpa [MEGS] using hm), if_neg (by simpa [KILO] using hk)]

/-- C8 witness: 2 GiB is above the GB threshold and renders through the
GB tier. -/
theorem c8_display_witness :
    ContentLength.display ⟨2 ^ 31⟩ =
      fmtHundredths (roundHundredths (u64AsF64 (2 ^ 31)) GIGS) ++ " GB" :=
  c8_display.1 (2 ^ 31) (by norm_num)

end Rench
